import Mathlib

/-!
Shallow embedding of `scraper.py` (gold price scraper).

The program fetches a JSON-like response, parses price records for an
allow-list of gold types, dedupes against a CSV history store keyed by
`(date, gold_type)`, and appends the genuinely new rows.

Modelling conventions:
* JSON-like Python values are modelled by `JValue`; Python exceptions by
  `PyErr`, and fallible code returns `Except PyErr _`.
* The CSV file is modelled at the parsed-row level: `Store` is `none` when
  the file does not exist, and otherwise `some rows` where each row is the
  list of its fields (`csv` quoting round-trips, so field lists lose no
  information).
* The Python `set` of existing keys is modelled as the list of pairs in
  encounter order; only membership is ever used.
-/

/-- Python exception kinds this program can raise. -/
inductive PyErr where
  | attributeError
  | keyError
  | valueError
  | typeError
deriving DecidableEq, Repr

deriving instance DecidableEq for Except

/-- JSON-like Python values: strings, numbers, `None`, lists and
string-keyed mappings. -/
inductive JValue where
  | jstr (s : String)
  | jnum (n : Int)
  | jnull
  | jlist (items : List JValue)
  | jdict (entries : List (String × JValue))

/-- Association-list lookup on string keys (Python dicts have unique keys,
so first-match lookup models `dict.__getitem__` / `dict.get`). -/
def alookup {α : Type} (k : String) : List (String × α) → Option α
  | [] => none
  | (k', v) :: rest => if k' = k then some v else alookup k rest

/-- Model of Python `v.get(key, default)`: succeeds only on mappings;
on any non-mapping value (including lists) it raises `AttributeError`. -/
def pyGet (v : JValue) (key : String) (default : JValue) : Except PyErr JValue :=
  match v with
  | .jdict entries =>
    match alookup key entries with
    | some w => .ok w
    | none => .ok default
  | _ => .error .attributeError

/-- Model of Python iteration `for x in v`: lists yield their elements,
strings their characters, dicts their keys; numbers and `None` raise
`TypeError`. -/
def pyIter : JValue → Except PyErr (List JValue)
  | .jlist items => .ok items
  | .jstr s => .ok (s.data.map fun c => .jstr ⟨[c]⟩)
  | .jdict entries => .ok (entries.map fun e => .jstr e.1)
  | _ => .error .typeError

/-- Calling a `str` method (`.strip()`, `.replace(...)`) on a non-string
value raises `AttributeError`; on a string it yields the string. -/
def asStr : JValue → Except PyErr String
  | .jstr s => .ok s
  | _ => .error .attributeError

/-- Model of Python `str.strip()` (ASCII whitespace; the source strings
never carry exotic Unicode whitespace). -/
def pyStrip (s : String) : String :=
  ⟨((s.data.dropWhile Char.isWhitespace).reverse.dropWhile Char.isWhitespace).reverse⟩

/-- Model of `s.replace(c, "")` for a single-character pattern `c`:
every occurrence of `c` is removed. -/
def removeChar (c : Char) (s : String) : String :=
  ⟨s.data.filter fun d => d ≠ c⟩

/-- Digits of an integer literal folded to a number. -/
def digitsVal (l : List Char) : Nat :=
  l.foldl (fun a c => a * 10 + (c.toNat - 48)) 0

/-- Model of the builtin `int(s)` on strings: surrounding whitespace is
stripped, an optional sign is allowed, and the remainder must be a
non-empty run of ASCII digits; otherwise `ValueError`. (Python would
additionally accept underscore digit grouping and Unicode digits, which
never occur in this program's inputs.) -/
def pyInt (s : String) : Except PyErr Int :=
  match (pyStrip s).data with
  | [] => .error .valueError
  | c :: rest =>
    let signDigits : Int × List Char :=
      if c = '-' then (-1, rest) else if c = '+' then (1, rest) else (1, c :: rest)
    if signDigits.2 ≠ [] ∧ signDigits.2.all (fun d => d.isDigit) then
      .ok (signDigits.1 * (digitsVal signDigits.2 : Int))
    else
      .error .valueError

/-- One parsed observation (the dicts appended to `results` in
`parse_prices`, lines 44-48). -/
structure Price where
  gold_type : String
  buy_price : Int
  sell_price : Int
deriving DecidableEq, Repr

/-- line 16: the configured allow-list of gold type labels. -/
def GOLD_TYPES : List String := ["Nhẫn 999.9", "Vàng Miếng SJC (Loại 10 chỉ)"]

/-- lines 42-43: `item.get(field, "0").replace(".", "").replace(",", "")`. -/
def priceStr (item : JValue) (field : String) : Except PyErr String :=
  match pyGet item field (.jstr "0") with
  | .error e => .error e
  | .ok v =>
    match asStr v with
    | .error e => .error e
    | .ok s => .ok (removeChar ',' (removeChar '.' s))

/-- lines 46-47: `int(s) if s else 0`. -/
def intOrZero (s : String) : Except PyErr Int :=
  if s = "" then .ok 0 else pyInt s

/-- One iteration of the loop body of `parse_prices` (lines 39-48):
`none` when the record's trimmed label is not allow-listed, `some p`
when it matched and normalized. Evaluation order follows the source:
both price strings are computed before either `int` conversion. -/
def parse_item (item : JValue) : Except PyErr (Option Price) :=
  match pyGet item "loaivang" (.jstr "") with
  | .error e => .error e
  | .ok nv =>
    match asStr nv with
    | .error e => .error e
    | .ok ns =>
      if pyStrip ns ∈ GOLD_TYPES then
        match priceStr item "giamua" with
        | .error e => .error e
        | .ok bs =>
          match priceStr item "giaban" with
          | .error e => .error e
          | .ok ss =>
            match intOrZero bs with
            | .error e => .error e
            | .ok buy =>
              match intOrZero ss with
              | .error e => .error e
              | .ok sell => .ok (some ⟨pyStrip ns, buy, sell⟩)
      else .ok none

/-- The `for item in items` loop of `parse_prices` (lines 39-48). -/
def parse_items : List JValue → Except PyErr (List Price)
  | [] => .ok []
  | item :: rest =>
    match parse_item item with
    | .error e => .error e
    | .ok none => parse_items rest
    | .ok (some p) =>
      match parse_items rest with
      | .error e => .error e
      | .ok tail => .ok (p :: tail)

/-- lines 34-49: `parse_prices`. Line 37 is
`data.get("chitiet", data if isinstance(data, list) else [])`; on a
non-mapping `data` (a list included) the `.get` attribute access raises
before the default expression matters. -/
def parse_prices (data : JValue) : Except PyErr (List Price) :=
  match pyGet data "chitiet" (.jlist []) with
  | .error e => .error e
  | .ok iv =>
    match pyIter iv with
    | .error e => .error e
    | .ok items => parse_items items

/-- One CSV data row, as its list of fields. -/
abbrev Row := List String

/-- The CSV file: `none` when it does not exist, otherwise its rows
(header first, when any). -/
abbrev Store := Option (List Row)

/-- line 83: the header row `csv.writer` writes on first creation. -/
def CSV_HEADER : Row := ["date", "gold_type", "buy_price", "sell_price"]

/-- Model of `csv.DictReader` field access `row[c]`: the row dict is
`dict(zip(header, row))` with missing trailing fields filled by the
restval `None` (modelled as the inner `Option`); a column name absent
from the header raises `KeyError`. Duplicate header names keep the last
occurrence, as the later `dict` assignment wins. -/
def rowGet (header row : List String) (c : String) : Except PyErr (Option String) :=
  let padded := row.map some ++ List.replicate (header.length - row.length) none
  match alookup c (header.zip padded).reverse with
  | some v => .ok v
  | none => .error .keyError

/-- The `for row in reader` loop of `load_existing_dates` (lines 58-59);
`csv.DictReader` skips rows that are completely empty. -/
def load_rows (header : List String) : List Row → Except PyErr (List (Option String × Option String))
  | [] => .ok []
  | r :: rest =>
    if r = [] then load_rows header rest
    else
      match rowGet header r "date" with
      | .error e => .error e
      | .ok d =>
        match rowGet header r "gold_type" with
        | .error e => .error e
        | .ok t =>
          match load_rows header rest with
          | .error e => .error e
          | .ok tail => .ok ((d, t) :: tail)

/-- lines 52-60: `load_existing_dates`. The Python `set` is modelled as
the list of pairs in encounter order; only membership is used. -/
def load_existing_dates (store : Store) : Except PyErr (List (Option String × Option String)) :=
  match store with
  | none => .ok []
  | some [] => .ok []
  | some (header :: rows) => load_rows header rows

/-- lines 84-85: the field order of an appended row; `csv.writer` writes
`str()` of the integer prices. -/
def rowOf (today_str : String) (p : Price) : Row :=
  [today_str, p.gold_type, toString p.buy_price, toString p.sell_price]

/-- lines 70-74: keep a parsed price only when `(today_str, gold_type)`
is not among the existing keys. -/
def dedupFilter (prices : List Price) (today_str : String)
    (existing : List (Option String × Option String)) : List Price :=
  prices.filter fun p => decide ((some today_str, some p.gold_type) ∉ existing)

/-- Result of `save_prices`: the returned boolean, the rows written by the
append loop (observable via the per-row log lines), and the file content
afterwards. -/
structure SaveResult where
  saved : Bool
  appended : List Row
  store : Store
deriving DecidableEq, Repr

/-- lines 63-88: `save_prices`. `file_exists` is line 67
(`os.path.exists and os.path.getsize > 0`); opening with mode `"a"`
appends at the end, writing the header first when the file was missing
or empty. -/
def save_prices (prices : List Price) (today_str : String) (store : Store) :
    Except PyErr SaveResult :=
  let file_exists : Bool :=
    match store with
    | some (_ :: _) => true
    | _ => false
  match load_existing_dates store with
  | .error e => .error e
  | .ok existing =>
    let new_rows := dedupFilter prices today_str existing
    if new_rows = [] then
      .ok ⟨false, [], store⟩
    else
      let contents := store.getD []
      let appended := new_rows.map (rowOf today_str)
      .ok ⟨true, appended, some (contents ++ (if file_exists then [] else [CSV_HEADER]) ++ appended)⟩

/-- The list comprehension of line 101:
`[item.get("loaivang") for item in ...]` (default `None`). -/
def labelsOf : List JValue → Except PyErr (List JValue)
  | [] => .ok []
  | it :: rest =>
    match pyGet it "loaivang" .jnull with
    | .error e => .error e
    | .ok l =>
      match labelsOf rest with
      | .error e => .error e
      | .ok tail => .ok (l :: tail)

/-- line 101: the available-type labels printed in the empty-match warning,
computed by the same `data.get("chitiet", ...)` expression as the parser. -/
def availableLabels (data : JValue) : Except PyErr (List JValue) :=
  match pyGet data "chitiet" (.jlist []) with
  | .error e => .error e
  | .ok iv =>
    match pyIter iv with
    | .error e => .error e
    | .ok items => labelsOf items

/-- Observable outcome of one `main()` run: `err` is the exception
re-raised at line 112 (`none` means exit code 0), `appended` the number
of rows written, `warned` whether the line-100 warning was printed with
`warnLabels` its label list, and `store` the file content afterwards. -/
structure RunResult where
  err : Option PyErr
  appended : Nat
  warned : Bool
  warnLabels : List JValue
  store : Store

/-- lines 91-112: `main`, with the fetched response `data` and the
UTC+7 date string `today` (line 92) passed in as inputs. -/
def main_run (data : JValue) (today : String) (store : Store) : RunResult :=
  match parse_prices data with
  | .error e => ⟨some e, 0, false, [], store⟩
  | .ok [] =>
    match availableLabels data with
    | .error e => ⟨some e, 0, false, [], store⟩
    | .ok ls => ⟨none, 0, true, ls, store⟩
  | .ok (p :: ps) =>
    match save_prices (p :: ps) today store with
    | .error e => ⟨some e, 0, false, [], store⟩
    | .ok r => ⟨none, r.appended.length, false, [], r.store⟩

/-! Section: Helper lemmas about the parser -/

/-- Projection of lines 40-41: the trimmed label of a detail record when
it is allow-listed, `none` otherwise (price fields are ignored). -/
def matchedLabel (item : JValue) : Option String :=
  match pyGet item "loaivang" (.jstr "") with
  | .ok (.jstr s) => if pyStrip s ∈ GOLD_TYPES then some (pyStrip s) else none
  | _ => none

theorem parse_item_matchedLabel (it : JValue) (o : Option Price)
    (h : parse_item it = .ok o) : matchedLabel it = o.map Price.gold_type := by
  unfold parse_item at h
  unfold matchedLabel
  cases hg : pyGet it "loaivang" (.jstr "") with
  | error e => rw [hg] at h; exact absurd h (by simp)
  | ok nv =>
    rw [hg] at h
    cases nv with
    | jstr s =>
      simp only [asStr] at h
      by_cases hmem : pyStrip s ∈ GOLD_TYPES
      · rw [if_pos hmem] at h
        cases hb : priceStr it "giamua" with
        | error e => rw [hb] at h; exact absurd h (by simp)
        | ok bs =>
          rw [hb] at h
          cases hs : priceStr it "giaban" with
          | error e => rw [hs] at h; exact absurd h (by simp)
          | ok ss =>
            rw [hs] at h
            dsimp only at h
            cases hib : intOrZero bs with
            | error e => rw [hib] at h; exact absurd h (by simp)
            | ok buy =>
              rw [hib] at h
              cases his : intOrZero ss with
              | error e => rw [his] at h; exact absurd h (by simp)
              | ok sell =>
                rw [his] at h
                injection h with h
                subst h
                simp [if_pos hmem]
      · rw [if_neg hmem] at h
        injection h with h
        subst h
        simp [if_neg hmem]
    | jnum n => exact absurd h (by simp [asStr])
    | jnull => exact absurd h (by simp [asStr])
    | jlist l => exact absurd h (by simp [asStr])
    | jdict d => exact absurd h (by simp [asStr])

theorem parse_items_labels (items : List JValue) (res : List Price)
    (h : parse_items items = .ok res) :
    res.map Price.gold_type = items.filterMap matchedLabel := by
  induction items generalizing res with
  | nil =>
    unfold parse_items at h
    injection h with h
    subst h
    simp
  | cons it rest ih =>
    unfold parse_items at h
    cases hpi : parse_item it with
    | error e => rw [hpi] at h; exact absurd h (by simp)
    | ok o =>
      rw [hpi] at h
      cases o with
      | none =>
        rw [List.filterMap_cons, parse_item_matchedLabel it none hpi]
        exact ih res h
      | some p =>
        cases hr : parse_items rest with
        | error e => rw [hr] at h; exact absurd h (by simp)
        | ok tail =>
          rw [hr] at h
          injection h with h
          subst h
          rw [List.filterMap_cons, parse_item_matchedLabel it (some p) hpi]
          simp [ih tail hr]

theorem dedupFilter_mem (prices : List Price) (today : String)
    (ex : List (Option String × Option String)) (p : Price) :
    p ∈ dedupFilter prices today ex ↔
      p ∈ prices ∧ (some today, some p.gold_type) ∉ ex := by
  simp [dedupFilter, List.mem_filter]

/-! Section: Claims -/

/-- Claim C1 (dedup correctness): whenever the existing keys loaded from
the store contain the pair `(today, t)`, a successful `save_prices` never
appends a row carrying that `(date, gold_type)` pair, whatever the price
values in the parsed observations. -/
theorem claim1_dedup_correct
    (prices : List Price) (today t : String) (store : Store)
    (ex : List (Option String × Option String)) (r : SaveResult)
    (hload : load_existing_dates store = .ok ex)
    (hmem : ((some today : Option String), (some t : Option String)) ∈ ex)
    (hsave : save_prices prices today store = .ok r) :
    ∀ row ∈ r.appended, ¬ (row.get? 0 = some today ∧ row.get? 1 = some t) := by
  intro row hrow hpair
  unfold save_prices at hsave
  rw [hload] at hsave
  dsimp only at hsave
  split at hsave
  · injection hsave with hsave
    subst hsave
    simp at hrow
  · injection hsave with hsave
    subst hsave
    simp only [SaveResult.appended] at hrow
    obtain ⟨p, hp, rfl⟩ := List.mem_map.mp hrow
    have h1 : (rowOf today p).get? 1 = some p.gold_type := rfl
    rw [h1] at hpair
    have hgt : p.gold_type = t := by
      have := hpair.2
      injection this
    have := (dedupFilter_mem prices today ex p).mp hp
    exact this.2 (hgt ▸ hmem)

/-- Witness for C1 at a concrete store already holding the key
`("2024-01-01", "G")` and a batch holding a fresh price for `"G"` plus a
genuinely new type `"H"`: the one appended row is not a `"G"` row. -/
theorem claim1_dedup_correct_witness :
    ¬ ((["2024-01-01", "H", "7", "8"] : Row).get? 0 = some "2024-01-01"
       ∧ (["2024-01-01", "H", "7", "8"] : Row).get? 1 = some "G") :=
  claim1_dedup_correct [⟨"G", 5, 6⟩, ⟨"H", 7, 8⟩] "2024-01-01" "G"
    (some [CSV_HEADER, ["2024-01-01", "G", "1", "2"]])
    [(some "2024-01-01", some "G")]
    ⟨true, [["2024-01-01", "H", "7", "8"]],
      some [CSV_HEADER, ["2024-01-01", "G", "1", "2"], ["2024-01-01", "H", "7", "8"]]⟩
    (by decide) (by decide) (by decide)
    ["2024-01-01", "H", "7", "8"] (by decide)

/-- Claim C3 (code bug): the spec promises that a raw response that is
itself a list of detail records is accepted transparently, but the code
calls `data.get(...)` on it, which raises `AttributeError` on a list;
the identical records wrapped in a `{"chitiet": ...}` mapping parse
fine. -/
theorem claim3_list_shape_raises :
    parse_prices (.jlist [.jdict [("loaivang", .jstr "Nhẫn 999.9"),
        ("giamua", .jstr "1.000"), ("giaban", .jstr "2.000")]])
      = .error .attributeError
    ∧ parse_prices (.jdict [("chitiet", .jlist [.jdict [("loaivang", .jstr "Nhẫn 999.9"),
        ("giamua", .jstr "1.000"), ("giaban", .jstr "2.000")]])])
      = .ok [⟨"Nhẫn 999.9", 1000, 2000⟩] := by
  constructor
  · rfl
  · decide

/-- Claim C5 (numeric normalization): `"123.456.789"` normalizes to
`123456789`, `"12,5"` to `125` (separators stripped, no decimal
interpretation), and an empty or missing price string to `0`. -/
theorem claim5_numeric_normalization :
    parse_prices (.jdict [("chitiet", .jlist [
        .jdict [("loaivang", .jstr "Nhẫn 999.9"),
                ("giamua", .jstr "123.456.789"), ("giaban", .jstr "12,5")],
        .jdict [("loaivang", .jstr "Vàng Miếng SJC (Loại 10 chỉ)"),
                ("giamua", .jstr "")]])])
      = .ok [⟨"Nhẫn 999.9", 123456789, 125⟩,
             ⟨"Vàng Miếng SJC (Loại 10 chỉ)", 0, 0⟩] := by
  decide

/-- Claim C6 (allow-list filtering with order preservation): when the
parser succeeds, the observations' labels, in order, are exactly the
allow-listed trimmed labels of the detail records in encounter order:
a non-matching record yields no observation, a case-exact matching one
yields exactly one. -/
theorem claim6_allowlist_order
    (data iv : JValue) (items : List JValue) (res : List Price)
    (h1 : pyGet data "chitiet" (.jlist []) = .ok iv)
    (h2 : pyIter iv = .ok items)
    (h3 : parse_prices data = .ok res) :
    res.map Price.gold_type = items.filterMap matchedLabel := by
  unfold parse_prices at h3
  rw [h1] at h3
  dsimp only at h3
  rw [h2] at h3
  dsimp only at h3
  exact parse_items_labels items res h3

/-- Witness for C6: a response with one matching record (label needing
a trim), one non-matching record, and one matching record again. -/
theorem claim6_allowlist_order_witness :
    List.map Price.gold_type
        [⟨"Nhẫn 999.9", 1, 2⟩, ⟨"Vàng Miếng SJC (Loại 10 chỉ)", 3, 4⟩]
      = List.filterMap matchedLabel
          [.jdict [("loaivang", .jstr " Nhẫn 999.9 "), ("giamua", .jstr "1"), ("giaban", .jstr "2")],
           .jdict [("loaivang", .jstr "Vàng khác"), ("giamua", .jstr "9"), ("giaban", .jstr "9")],
           .jdict [("loaivang", .jstr "Vàng Miếng SJC (Loại 10 chỉ)"), ("giamua", .jstr "3"), ("giaban", .jstr "4")]] :=
  claim6_allowlist_order
    (.jdict [("chitiet", .jlist
        [.jdict [("loaivang", .jstr " Nhẫn 999.9 "), ("giamua", .jstr "1"), ("giaban", .jstr "2")],
         .jdict [("loaivang", .jstr "Vàng khác"), ("giamua", .jstr "9"), ("giaban", .jstr "9")],
         .jdict [("loaivang", .jstr "Vàng Miếng SJC (Loại 10 chỉ)"), ("giamua", .jstr "3"), ("giaban", .jstr "4")]])])
    (.jlist
        [.jdict [("loaivang", .jstr " Nhẫn 999.9 "), ("giamua", .jstr "1"), ("giaban", .jstr "2")],
         .jdict [("loaivang", .jstr "Vàng khác"), ("giamua", .jstr "9"), ("giaban", .jstr "9")],
         .jdict [("loaivang", .jstr "Vàng Miếng SJC (Loại 10 chỉ)"), ("giamua", .jstr "3"), ("giaban", .jstr "4")]])
    [.jdict [("loaivang", .jstr " Nhẫn 999.9 "), ("giamua", .jstr "1"), ("giaban", .jstr "2")],
     .jdict [("loaivang", .jstr "Vàng khác"), ("giamua", .jstr "9"), ("giaban", .jstr "9")],
     .jdict [("loaivang", .jstr "Vàng Miếng SJC (Loại 10 chỉ)"), ("giamua", .jstr "3"), ("giaban", .jstr "4")]]
    [⟨"Nhẫn 999.9", 1, 2⟩, ⟨"Vàng Miếng SJC (Loại 10 chỉ)", 3, 4⟩]
    rfl rfl (by decide)

/-- Claim C10 (implicit, batch-failure on bad price data): a matching
record whose price string strips to a non-empty non-integer (`"n/a"`,
`"1 000"`), or whose price field is not a string at all, makes
`parse_prices` raise for the whole batch (even when another record in
the batch is fine) instead of normalizing to `0` or skipping. -/
theorem claim10_batch_failure :
    parse_prices (.jdict [("chitiet", .jlist [
        .jdict [("loaivang", .jstr "Nhẫn 999.9"), ("giamua", .jstr "1"), ("giaban", .jstr "2")],
        .jdict [("loaivang", .jstr "Nhẫn 999.9"), ("giamua", .jstr "n/a"), ("giaban", .jstr "1")]])])
      = .error .valueError
    ∧ parse_prices (.jdict [("chitiet", .jlist [
        .jdict [("loaivang", .jstr "Nhẫn 999.9"), ("giamua", .jstr "1 000"), ("giaban", .jstr "1")]])])
      = .error .valueError
    ∧ parse_prices (.jdict [("chitiet", .jlist [
        .jdict [("loaivang", .jstr "Nhẫn 999.9"), ("giamua", .jnum 5)]])])
      = .error .attributeError := by
  refine ⟨by decide, by decide, by decide⟩

/-! Section: Helper lemmas about the store -/

theorem alookup_mem {α : Type} (c : String) (l : List (String × α))
    (h : c ∈ l.map Prod.fst) : ∃ v, alookup c l = some v := by
  induction l with
  | nil => simp at h
  | cons e rest ih =>
    obtain ⟨k, v⟩ := e
    by_cases hk : k = c
    · exact ⟨v, by simp [alookup, hk]⟩
    · simp only [List.map_cons, List.mem_cons] at h
      rcases h with h | h
      · exact absurd h.symm hk
      · obtain ⟨w, hw⟩ := ih h
        exact ⟨w, by simp [alookup, hk, hw]⟩

theorem rowGet_ok (header row : List String) (c : String) (h : c ∈ header) :
    ∃ v, rowGet header row c = .ok v := by
  unfold rowGet
  dsimp only
  have hlen : header.length ≤
      (row.map some ++ List.replicate (header.length - row.length) (none : Option String)).length := by
    simp only [List.length_append, List.length_map, List.length_replicate]
    omega
  have hkeys : (header.zip (row.map some ++
      List.replicate (header.length - row.length) (none : Option String))).map Prod.fst = header :=
    List.map_fst_zip _ _ hlen
  have hmem : c ∈ ((header.zip (row.map some ++
      List.replicate (header.length - row.length) (none : Option String))).reverse).map Prod.fst := by
    rw [List.map_reverse, hkeys, List.mem_reverse]
    exact h
  obtain ⟨v, hv⟩ := alookup_mem c _ hmem
  exact ⟨v, by rw [hv]⟩

theorem load_rows_ok (header : List String) (rows : List Row)
    (hd : "date" ∈ header) (hg : "gold_type" ∈ header) :
    ∃ ex, load_rows header rows = .ok ex := by
  induction rows with
  | nil => exact ⟨[], rfl⟩
  | cons r rest ih =>
    obtain ⟨ex, hex⟩ := ih
    by_cases hr : r = []
    · exact ⟨ex, by rw [load_rows, if_pos hr]; exact hex⟩
    · obtain ⟨d, hdv⟩ := rowGet_ok header r "date" hd
      obtain ⟨t, htv⟩ := rowGet_ok header r "gold_type" hg
      exact ⟨(d, t) :: ex, by rw [load_rows, if_neg hr, hdv]; dsimp only; rw [htv]; dsimp only; rw [hex]⟩

theorem load_rows_append (header : List String) (a b : List Row)
    (ea eb : List (Option String × Option String))
    (ha : load_rows header a = .ok ea) (hb : load_rows header b = .ok eb) :
    load_rows header (a ++ b) = .ok (ea ++ eb) := by
  induction a generalizing ea with
  | nil =>
    rw [load_rows] at ha
    injection ha with ha
    subst ha
    simpa using hb
  | cons r rest ih =>
    rw [List.cons_append]
    by_cases hr : r = []
    · rw [load_rows, if_pos hr]
      rw [load_rows, if_pos hr] at ha
      exact ih ea ha
    · rw [load_rows, if_neg hr]
      rw [load_rows, if_neg hr] at ha
      cases hdv : rowGet header r "date" with
      | error e => rw [hdv] at ha; exact absurd ha (by simp)
      | ok d =>
        rw [hdv] at ha
        dsimp only at ha ⊢
        cases htv : rowGet header r "gold_type" with
        | error e => rw [htv] at ha; exact absurd ha (by simp)
        | ok t =>
          rw [htv] at ha
          dsimp only at ha ⊢
          cases hrest : load_rows header rest with
          | error e => rw [hrest] at ha; exact absurd ha (by simp)
          | ok tail =>
            rw [hrest] at ha
            dsimp only at ha
            injection ha with ha
            subst ha
            rw [ih tail hrest]
            dsimp only
            rw [List.cons_append]

theorem rowGet_rowOf_date (today : String) (p : Price) :
    rowGet CSV_HEADER (rowOf today p) "date" = .ok (some today) := rfl

theorem rowGet_rowOf_gold (today : String) (p : Price) :
    rowGet CSV_HEADER (rowOf today p) "gold_type" = .ok (some p.gold_type) := rfl

theorem load_rows_rowOf (today : String) (l : List Price) :
    load_rows CSV_HEADER (l.map (rowOf today))
      = .ok (l.map fun p => ((some today : Option String), (some p.gold_type : Option String))) := by
  induction l with
  | nil => rfl
  | cons p rest ih =>
    simp only [List.map_cons]
    rw [load_rows, if_neg (show ¬ rowOf today p = [] by simp [rowOf])]
    rw [rowGet_rowOf_date today p]
    dsimp only
    rw [rowGet_rowOf_gold today p]
    dsimp only
    rw [ih]

theorem dedupFilter_empty (prices : List Price) (today : String) :
    dedupFilter prices today [] = prices := by
  simp [dedupFilter]

theorem dedupFilter_eq_nil (prices : List Price) (today : String)
    (ex : List (Option String × Option String))
    (h : ∀ q ∈ prices, ((some today : Option String), (some q.gold_type : Option String)) ∈ ex) :
    dedupFilter prices today ex = [] := by
  unfold dedupFilter
  rw [List.filter_eq_nil_iff]
  intro q hq
  simp [h q hq]

theorem dedupFilter_eq_self (prices : List Price) (today : String)
    (ex : List (Option String × Option String))
    (h : ∀ q ∈ prices, ((some today : Option String), (some q.gold_type : Option String)) ∉ ex) :
    dedupFilter prices today ex = prices := by
  unfold dedupFilter
  rw [List.filter_eq_self]
  intro q hq
  simp [h q hq]

/-- Store states in the file format this program itself writes: missing,
empty, or headed by the standard header row. -/
def GoodStore (store : Store) : Prop :=
  store = none ∨ store = some [] ∨ ∃ rs, store = some (CSV_HEADER :: rs)

theorem save_good (prices : List Price) (today : String) (store : Store)
    (hg : GoodStore store) :
    ∃ rs ex, load_rows CSV_HEADER rs = .ok ex ∧ load_existing_dates store = .ok ex ∧
      save_prices prices today store =
        (if dedupFilter prices today ex = [] then .ok ⟨false, [], store⟩
         else .ok ⟨true, (dedupFilter prices today ex).map (rowOf today),
           some (CSV_HEADER :: (rs ++ (dedupFilter prices today ex).map (rowOf today)))⟩) := by
  rcases hg with rfl | rfl | ⟨rs, rfl⟩
  · refine ⟨[], [], rfl, rfl, ?_⟩
    unfold save_prices
    dsimp only [load_existing_dates]
    by_cases hnr : dedupFilter prices today [] = []
    · rw [if_pos hnr, if_pos hnr]
    · rw [if_neg hnr, if_neg hnr]
      rfl
  · refine ⟨[], [], rfl, rfl, ?_⟩
    unfold save_prices
    dsimp only [load_existing_dates]
    by_cases hnr : dedupFilter prices today [] = []
    · rw [if_pos hnr, if_pos hnr]
    · rw [if_neg hnr, if_neg hnr]
      rfl
  · obtain ⟨ex, hex⟩ := load_rows_ok CSV_HEADER rs (by decide) (by decide)
    refine ⟨rs, ex, hex, hex, ?_⟩
    unfold save_prices
    rw [show load_existing_dates (some (CSV_HEADER :: rs)) = .ok ex from hex]
    dsimp only
    by_cases hnr : dedupFilter prices today ex = []
    · rw [if_pos hnr, if_pos hnr]
    · rw [if_neg hnr, if_neg hnr]
      simp

/-- Claim C2 counterexample: a store whose header row lists the columns
as `gold_type,date` (a state `load_existing_dates` reads without error).
The first run completes successfully and appends the day's row, yet the
second run on the resulting store appends the same row again, because
the appended row was written in the fixed `date,gold_type,...` order and
is read back with its key reversed. -/
theorem claim2_idempotence_cex :
    (main_run (.jdict [("chitiet", .jlist [.jdict [("loaivang", .jstr "Nhẫn 999.9"),
        ("giamua", .jstr "10"), ("giaban", .jstr "20")]])])
      "2024-06-01" (some [["gold_type", "date"]])).err = none
    ∧ (main_run (.jdict [("chitiet", .jlist [.jdict [("loaivang", .jstr "Nhẫn 999.9"),
        ("giamua", .jstr "10"), ("giaban", .jstr "20")]])])
      "2024-06-01" (some [["gold_type", "date"]])).appended = 1
    ∧ (main_run (.jdict [("chitiet", .jlist [.jdict [("loaivang", .jstr "Nhẫn 999.9"),
        ("giamua", .jstr "10"), ("giaban", .jstr "20")]])])
      "2024-06-01"
      ((main_run (.jdict [("chitiet", .jlist [.jdict [("loaivang", .jstr "Nhẫn 999.9"),
          ("giamua", .jstr "10"), ("giaban", .jstr "20")]])])
        "2024-06-01" (some [["gold_type", "date"]])).store)).appended = 1 := by
  refine ⟨by decide, by decide, by decide⟩

/-- Claim C2 as amended: for every store state in the format this program
writes (missing, empty, or headed by the standard header row), if a run
of the pipeline completes successfully then a second run with the same
response and the same day appends zero rows. -/
theorem claim2_idempotence_amended
    (data : JValue) (today : String) (store : Store)
    (hg : GoodStore store)
    (h1 : (main_run data today store).err = none) :
    (main_run data today (main_run data today store).store).appended = 0 := by
  cases hp : parse_prices data with
  | error e => simp [main_run, hp] at h1
  | ok prices =>
    cases prices with
    | nil =>
      cases hl : availableLabels data with
      | error e => simp [main_run, hp, hl] at h1
      | ok ls => simp [main_run, hp, hl]
    | cons p ps =>
      obtain ⟨rs, ex, hrows, hload, hsave⟩ := save_good (p :: ps) today store hg
      by_cases hnr : dedupFilter (p :: ps) today ex = []
      · rw [if_pos hnr] at hsave
        simp [main_run, hp, hsave]
      · rw [if_neg hnr] at hsave
        have hload2 : load_existing_dates
            (some (CSV_HEADER :: (rs ++ (dedupFilter (p :: ps) today ex).map (rowOf today))))
            = .ok (ex ++ (dedupFilter (p :: ps) today ex).map
                fun q => ((some today : Option String), (some q.gold_type : Option String))) :=
          load_rows_append CSV_HEADER rs _ ex _ hrows (load_rows_rowOf today _)
        have hall : ∀ q ∈ (p :: ps),
            ((some today : Option String), (some q.gold_type : Option String)) ∈
              ex ++ (dedupFilter (p :: ps) today ex).map
                (fun q => ((some today : Option String), (some q.gold_type : Option String))) := by
          intro q hq
          by_cases hin : ((some today : Option String), (some q.gold_type : Option String)) ∈ ex
          · exact List.mem_append_left _ hin
          · refine List.mem_append_right _ ?_
            exact List.mem_map_of_mem _ ((dedupFilter_mem _ _ _ q).mpr ⟨hq, hin⟩)
        have hsave2 : save_prices (p :: ps) today
            (some (CSV_HEADER :: (rs ++ (dedupFilter (p :: ps) today ex).map (rowOf today))))
            = .ok ⟨false, [],
              some (CSV_HEADER :: (rs ++ (dedupFilter (p :: ps) today ex).map (rowOf today)))⟩ := by
          unfold save_prices
          rw [hload2]
          dsimp only
          rw [if_pos (dedupFilter_eq_nil _ _ _ hall)]
        simp [main_run, hp, hsave, hsave2]

/-- Witness for the amended C2 at a concrete missing store and a response
carrying one allow-listed record: the second run appends nothing. -/
theorem claim2_idempotence_amended_witness :
    (main_run (.jdict [("chitiet", .jlist [.jdict [("loaivang", .jstr "Nhẫn 999.9"),
        ("giamua", .jstr "30"), ("giaban", .jstr "40")]])])
      "2024-07-01"
      ((main_run (.jdict [("chitiet", .jlist [.jdict [("loaivang", .jstr "Nhẫn 999.9"),
          ("giamua", .jstr "30"), ("giaban", .jstr "40")]])])
        "2024-07-01" none).store)).appended = 0 :=
  claim2_idempotence_amended
    (.jdict [("chitiet", .jlist [.jdict [("loaivang", .jstr "Nhẫn 999.9"),
        ("giamua", .jstr "30"), ("giaban", .jstr "40")]])])
    "2024-07-01" none (Or.inl rfl) (by decide)

/-- Claim C7 counterexample: against a prior store whose header row is
`gold_type,date`, appending one genuinely new row and re-loading the keys
returns the reversed pair `("G", "2024-05-05")` instead of the appended
key `("2024-05-05", "G")`, so the loaded set is not the union of the old
keys and the new pairs. -/
theorem claim7_roundtrip_cex :
    save_prices [⟨"G", 1, 2⟩] "2024-05-05" (some [["gold_type", "date"]])
      = .ok ⟨true, [["2024-05-05", "G", "1", "2"]],
          some [["gold_type", "date"], ["2024-05-05", "G", "1", "2"]]⟩
    ∧ load_existing_dates (some [["gold_type", "date"], ["2024-05-05", "G", "1", "2"]])
      = .ok [(some "G", some "2024-05-05")]
    ∧ ((some "2024-05-05" : Option String), (some "G" : Option String))
      ∉ [((some "G" : Option String), (some "2024-05-05" : Option String))] := by
  refine ⟨by decide, by decide, by decide⟩

/-- Claim C7 as amended: for every prior store state in the format this
program writes (missing, empty, or headed by the standard header row) and
every batch whose `(today, gold_type)` keys are not yet present, appending
the batch and re-loading the existing keys yields exactly the union of the
previously existing pairs and the batch's pairs. -/
theorem claim7_roundtrip_amended
    (prices : List Price) (today : String) (store : Store)
    (ex : List (Option String × Option String))
    (hg : GoodStore store)
    (hload : load_existing_dates store = .ok ex)
    (hnew : ∀ p ∈ prices,
      ((some today : Option String), (some p.gold_type : Option String)) ∉ ex) :
    ∃ r ex', save_prices prices today store = .ok r ∧
      load_existing_dates r.store = .ok ex' ∧
      ∀ k, k ∈ ex' ↔ (k ∈ ex ∨
        k ∈ prices.map fun p =>
          ((some today : Option String), (some p.gold_type : Option String))) := by
  obtain ⟨rs, ex0, hrows, hload0, hsave⟩ := save_good prices today store hg
  have hex : ex0 = ex := by
    rw [hload0] at hload
    injection hload
  rw [hex] at hrows hsave
  have hfull : dedupFilter prices today ex = prices := dedupFilter_eq_self prices today ex hnew
  rw [hfull] at hsave
  by_cases hpn : prices = []
  · subst hpn
    rw [if_pos rfl] at hsave
    refine ⟨⟨false, [], store⟩, ex, hsave, hload, ?_⟩
    intro k
    simp
  · rw [if_neg hpn] at hsave
    refine ⟨_, ex ++ prices.map (fun p =>
        ((some today : Option String), (some p.gold_type : Option String))), hsave, ?_, ?_⟩
    · exact load_rows_append CSV_HEADER rs _ ex _ hrows (load_rows_rowOf today prices)
    · intro k
      simp [List.mem_append]

/-- Witness for the amended C7: one new row over a store that already
holds a different day's key. -/
theorem claim7_roundtrip_amended_witness :
    ∃ r ex', save_prices [⟨"G", 1, 2⟩] "2024-05-06"
        (some [CSV_HEADER, ["2024-05-05", "G", "1", "2"]]) = .ok r ∧
      load_existing_dates r.store = .ok ex' ∧
      ∀ k, k ∈ ex' ↔ (k ∈ [((some "2024-05-05" : Option String), (some "G" : Option String))] ∨
        k ∈ List.map (fun p =>
          ((some "2024-05-06" : Option String), (some p.gold_type : Option String)))
          [(⟨"G", 1, 2⟩ : Price)]) :=
  claim7_roundtrip_amended [⟨"G", 1, 2⟩] "2024-05-06"
    (some [CSV_HEADER, ["2024-05-05", "G", "1", "2"]])
    [((some "2024-05-05" : Option String), (some "G" : Option String))]
    (Or.inr (Or.inr ⟨[["2024-05-05", "G", "1", "2"]], rfl⟩))
    (by decide) (by decide)

/-- Store states made of the standard header followed by standard
four-field data rows (the only shape this program's own appends
produce), or missing/empty. -/
def WFStore (store : Store) : Prop :=
  store = none ∨ store = some [] ∨
    ∃ rs, store = some (CSV_HEADER :: rs) ∧ ∀ r ∈ rs, r.length = 4

/-- Key pairs of the data rows of a store, in file order: field 0 is the
date column and field 1 the gold type column of a standard row. -/
def storeKeys (store : Store) : List (Option String × Option String) :=
  match store with
  | some (_ :: rows) => rows.map fun r => (r.get? 0, r.get? 1)
  | _ => []

theorem exists_four {α : Type} (r : List α) (h : r.length = 4) :
    ∃ a b c d, r = [a, b, c, d] := by
  rcases r with _ | ⟨a, r⟩
  · simp at h
  rcases r with _ | ⟨b, r⟩
  · simp at h
  rcases r with _ | ⟨c, r⟩
  · simp at h
  rcases r with _ | ⟨d, r⟩
  · simp at h
  rcases r with _ | ⟨e, r⟩
  · exact ⟨a, b, c, d, rfl⟩
  · simp only [List.length_cons] at h
    omega

theorem load_rows_wf (rs : List Row) (h : ∀ r ∈ rs, r.length = 4) :
    load_rows CSV_HEADER rs = .ok (rs.map fun r => (r.get? 0, r.get? 1)) := by
  induction rs with
  | nil => rfl
  | cons r rest ih =>
    obtain ⟨a, b, c, d, rfl⟩ := exists_four r (h r (List.mem_cons_self r rest))
    simp only [List.map_cons]
    rw [load_rows, if_neg (by simp)]
    rw [show rowGet CSV_HEADER [a, b, c, d] "date" = .ok (some a) from rfl]
    dsimp only
    rw [show rowGet CSV_HEADER [a, b, c, d] "gold_type" = .ok (some b) from rfl]
    dsimp only
    rw [ih fun x hx => h x (List.mem_cons_of_mem _ hx)]
    rfl

theorem storeKeys_rowOf (today : String) (l : List Price) :
    (l.map (rowOf today)).map (fun r => (r.get? 0, r.get? 1))
      = l.map fun p => ((some today : Option String), (some p.gold_type : Option String)) := by
  rw [List.map_map]
  rfl

/-- Claim C4 counterexample: a run whose parsed batch holds two
observations for the same gold type (the upstream response repeated the
label) appends both rows, so the resulting store carries the key
`("2024-03-03", "Nhẫn 999.9")` twice and the `(date, gold_type)`
uniqueness invariant is violated. -/
theorem claim4_uniqueness_cex :
    (main_run (.jdict [("chitiet", .jlist [
        .jdict [("loaivang", .jstr "Nhẫn 999.9"), ("giamua", .jstr "1"), ("giaban", .jstr "2")],
        .jdict [("loaivang", .jstr "Nhẫn 999.9"), ("giamua", .jstr "3"), ("giaban", .jstr "4")]])])
      "2024-03-03" none).store
      = some [CSV_HEADER, ["2024-03-03", "Nhẫn 999.9", "1", "2"],
              ["2024-03-03", "Nhẫn 999.9", "3", "4"]]
    ∧ ¬ (storeKeys (some [CSV_HEADER, ["2024-03-03", "Nhẫn 999.9", "1", "2"],
              ["2024-03-03", "Nhẫn 999.9", "3", "4"]])).Nodup := by
  refine ⟨by decide, by decide⟩

theorem save_prices_none (prices : List Price) (today : String) :
    save_prices prices today none =
      (if prices = [] then .ok ⟨false, [], none⟩
       else .ok ⟨true, prices.map (rowOf today),
         some (CSV_HEADER :: prices.map (rowOf today))⟩) := by
  unfold save_prices
  dsimp only [load_existing_dates]
  rw [dedupFilter_empty]
  by_cases hpn : prices = []
  · rw [if_pos hpn, if_pos hpn]
  · rw [if_neg hpn, if_neg hpn]
    rfl

theorem save_prices_emptyfile (prices : List Price) (today : String) :
    save_prices prices today (some []) =
      (if prices = [] then .ok ⟨false, [], some []⟩
       else .ok ⟨true, prices.map (rowOf today),
         some (CSV_HEADER :: prices.map (rowOf today))⟩) := by
  unfold save_prices
  dsimp only [load_existing_dates]
  rw [dedupFilter_empty]
  by_cases hpn : prices = []
  · rw [if_pos hpn, if_pos hpn]
  · rw [if_neg hpn, if_neg hpn]
    rfl

theorem save_prices_std (prices : List Price) (today : String) (rs : List Row)
    (ex : List (Option String × Option String))
    (hex : load_rows CSV_HEADER rs = .ok ex) :
    save_prices prices today (some (CSV_HEADER :: rs)) =
      (if dedupFilter prices today ex = [] then .ok ⟨false, [], some (CSV_HEADER :: rs)⟩
       else .ok ⟨true, (dedupFilter prices today ex).map (rowOf today),
         some (CSV_HEADER :: (rs ++ (dedupFilter prices today ex).map (rowOf today)))⟩) := by
  unfold save_prices
  rw [show load_existing_dates (some (CSV_HEADER :: rs)) = .ok ex from hex]
  dsimp only
  by_cases hnr : dedupFilter prices today ex = []
  · rw [if_pos hnr, if_pos hnr]
  · rw [if_neg hnr, if_neg hnr]
    simp

/-- Claim C4 as amended: for every well-formed store whose keys are
unique and every batch whose gold types are pairwise distinct, the store
keys after `save_prices` remain unique (duplicates of existing keys are
filtered out, and distinct batch keys cannot collide on the same day). -/
theorem claim4_uniqueness_amended
    (prices : List Price) (today : String) (store : Store)
    (hwf : WFStore store)
    (hkeys : (storeKeys store).Nodup)
    (hbatch : (prices.map Price.gold_type).Nodup) :
    ∃ r, save_prices prices today store = .ok r ∧ (storeKeys r.store).Nodup := by
  have hinj : Function.Injective
      (fun t => ((some today : Option String), (some t : Option String))) := by
    intro a b hab
    have := congrArg Prod.snd hab
    simpa using this
  have hnewnodup : ∀ ex, ((dedupFilter prices today ex).map
      fun p => ((some today : Option String), (some p.gold_type : Option String))).Nodup := by
    intro ex
    have hsub : ((dedupFilter prices today ex).map Price.gold_type).Nodup :=
      hbatch.sublist ((List.filter_sublist prices).map Price.gold_type)
    have hmm : (dedupFilter prices today ex).map
        (fun p => ((some today : Option String), (some p.gold_type : Option String)))
        = ((dedupFilter prices today ex).map Price.gold_type).map
            (fun t => ((some today : Option String), (some t : Option String))) := by
      rw [List.map_map]
      rfl
    rw [hmm]
    exact hsub.map hinj
  rcases hwf with rfl | rfl | ⟨rs, rfl, hlen⟩
  · rw [save_prices_none]
    by_cases hpn : prices = []
    · rw [if_pos hpn]
      exact ⟨_, rfl, by simp [storeKeys]⟩
    · rw [if_neg hpn]
      refine ⟨_, rfl, ?_⟩
      have h1 : storeKeys (some (CSV_HEADER :: prices.map (rowOf today)))
          = prices.map (fun p =>
              ((some today : Option String), (some p.gold_type : Option String))) :=
        storeKeys_rowOf today prices
      rw [h1]
      have h2 := hnewnodup []
      rw [dedupFilter_empty] at h2
      exact h2
  · rw [save_prices_emptyfile]
    by_cases hpn : prices = []
    · rw [if_pos hpn]
      exact ⟨_, rfl, by simp [storeKeys]⟩
    · rw [if_neg hpn]
      refine ⟨_, rfl, ?_⟩
      have h1 : storeKeys (some (CSV_HEADER :: prices.map (rowOf today)))
          = prices.map (fun p =>
              ((some today : Option String), (some p.gold_type : Option String))) :=
        storeKeys_rowOf today prices
      rw [h1]
      have h2 := hnewnodup []
      rw [dedupFilter_empty] at h2
      exact h2
  · have hload := load_rows_wf rs hlen
    rw [save_prices_std prices today rs _ hload]
    have holdkeys : storeKeys (some (CSV_HEADER :: rs))
        = rs.map fun r => (r.get? 0, r.get? 1) := rfl
    by_cases hnr : dedupFilter prices today (rs.map fun r => (r.get? 0, r.get? 1)) = []
    · rw [if_pos hnr]
      exact ⟨_, rfl, hkeys⟩
    · rw [if_neg hnr]
      refine ⟨_, rfl, ?_⟩
      have h1 : storeKeys (some (CSV_HEADER :: (rs ++
          (dedupFilter prices today (rs.map fun r => (r.get? 0, r.get? 1))).map (rowOf today))))
          = (rs.map fun r => (r.get? 0, r.get? 1)) ++
            (dedupFilter prices today (rs.map fun r => (r.get? 0, r.get? 1))).map
              (fun p => ((some today : Option String), (some p.gold_type : Option String))) := by
        show (rs ++ _).map _ = _
        rw [List.map_append, storeKeys_rowOf]
      rw [h1]
      rw [List.nodup_append]
      refine ⟨hkeys, hnewnodup _, ?_⟩
      intro k hk1 hk2
      obtain ⟨q, hq, rfl⟩ := List.mem_map.mp hk2
      exact ((dedupFilter_mem _ _ _ q).mp hq).2 hk1

/-- Witness for the amended C4: a store holding yesterday's key and a
two-type batch for today. -/
theorem claim4_uniqueness_amended_witness :
    ∃ r, save_prices [⟨"A", 1, 2⟩, ⟨"B", 3, 4⟩] "2024-08-01"
        (some [CSV_HEADER, ["2024-07-31", "A", "1", "2"]]) = .ok r
      ∧ (storeKeys r.store).Nodup :=
  claim4_uniqueness_amended [⟨"A", 1, 2⟩, ⟨"B", 3, 4⟩] "2024-08-01"
    (some [CSV_HEADER, ["2024-07-31", "A", "1", "2"]])
    (Or.inr (Or.inr ⟨[["2024-07-31", "A", "1", "2"]], rfl, by decide⟩))
    (by decide) (by decide)

/-- Claim C9 counterexample: a data row missing the gold type column is
not skipped by `load_existing_dates` — it contributes the pair
`(some "2024-04-04", none)` to the loaded key set — and a file whose
header lacks the `date` column makes the read raise a `KeyError` on its
first data row rather than skipping it or surfacing a storage-specific
error. -/
theorem claim9_malformed_cex :
    load_existing_dates (some [CSV_HEADER, ["2024-04-04"]])
      = .ok [(some "2024-04-04", none)]
    ∧ load_existing_dates (some [["gold_type"], ["2024-04-04", "G"]])
      = .error .keyError := by
  refine ⟨by decide, by decide⟩

/-- Claim C9 as amended: when the header row carries both the `date` and
`gold_type` columns, the read never crashes on malformed data rows; a row
missing columns is not skipped but contributes a pair with a `None`
placeholder, and such placeholder pairs never affect the dedup filter,
so they cannot corrupt subsequent writes. -/
theorem claim9_malformed_amended
    (hdr : List String) (rows : List Row) (prices : List Price) (today : String)
    (hd : "date" ∈ hdr) (hg : "gold_type" ∈ hdr) :
    ∃ ex, load_existing_dates (some (hdr :: rows)) = .ok ex ∧
      dedupFilter prices today ex
        = dedupFilter prices today (ex.filter fun k => k.1.isSome && k.2.isSome) := by
  obtain ⟨ex, hex⟩ := load_rows_ok hdr rows hd hg
  refine ⟨ex, hex, ?_⟩
  unfold dedupFilter
  apply List.filter_congr
  intro p hp
  rw [decide_eq_decide]
  apply not_congr
  rw [List.mem_filter]
  simp

/-- Witness for the amended C9 at a store with a reordered header, a
short row, a blank row, and an over-long row. -/
theorem claim9_malformed_amended_witness :
    ∃ ex, load_existing_dates (some [["x", "gold_type", "date"],
        ["r1"], [], ["a", "b", "c", "d"]]) = .ok ex ∧
      dedupFilter [(⟨"P", 1, 1⟩ : Price)] "2024-09-09" ex
        = dedupFilter [(⟨"P", 1, 1⟩ : Price)] "2024-09-09"
            (ex.filter fun k => k.1.isSome && k.2.isSome) :=
  claim9_malformed_amended ["x", "gold_type", "date"]
    [["r1"], [], ["a", "b", "c", "d"]] [(⟨"P", 1, 1⟩ : Price)] "2024-09-09"
    (by decide) (by decide)

/-! Section: Helper lemmas for the empty-match warning path -/

theorem parse_item_jdict (it : JValue) (o : Option Price)
    (h : parse_item it = .ok o) : ∃ d, it = .jdict d := by
  cases it with
  | jdict d => exact ⟨d, rfl⟩
  | jstr s => exact absurd h (by simp [parse_item, pyGet])
  | jnum n => exact absurd h (by simp [parse_item, pyGet])
  | jnull => exact absurd h (by simp [parse_item, pyGet])
  | jlist l => exact absurd h (by simp [parse_item, pyGet])

theorem parse_items_jdict (items : List JValue) (res : List Price)
    (h : parse_items items = .ok res) : ∀ it ∈ items, ∃ d, it = .jdict d := by
  induction items generalizing res with
  | nil => intro it hit; simp at hit
  | cons x rest ih =>
    intro it hit
    unfold parse_items at h
    cases hpi : parse_item x with
    | error e => rw [hpi] at h; exact absurd h (by simp)
    | ok o =>
      rw [hpi] at h
      rcases List.mem_cons.mp hit with rfl | hit'
      · exact parse_item_jdict it o hpi
      · cases o with
        | none => exact ih res h it hit'
        | some p =>
          cases hr : parse_items rest with
          | error e => rw [hr] at h; exact absurd h (by simp)
          | ok tail => exact ih tail hr it hit'

theorem labelsOf_ok (items : List JValue)
    (h : ∀ it ∈ items, ∃ d, it = .jdict d) : ∃ ls, labelsOf items = .ok ls := by
  induction items with
  | nil => exact ⟨[], rfl⟩
  | cons it rest ih =>
    obtain ⟨ls, hls⟩ := ih fun x hx => h x (List.mem_cons_of_mem _ hx)
    obtain ⟨d, rfl⟩ := h it (List.mem_cons_self it rest)
    cases ha : alookup "loaivang" d with
    | some w => exact ⟨w :: ls, by unfold labelsOf; simp [pyGet, ha, hls]⟩
    | none => exact ⟨.jnull :: ls, by unfold labelsOf; simp [pyGet, ha, hls]⟩

theorem labelsOf_mem (items ls : List JValue) (l : JValue)
    (h : labelsOf items = .ok ls) :
    l ∈ ls ↔ ∃ it ∈ items, pyGet it "loaivang" .jnull = .ok l := by
  induction items generalizing ls with
  | nil =>
    unfold labelsOf at h
    injection h with h
    subst h
    simp
  | cons it rest ih =>
    unfold labelsOf at h
    cases hg : pyGet it "loaivang" .jnull with
    | error e => rw [hg] at h; exact absurd h (by simp)
    | ok w =>
      rw [hg] at h
      dsimp only at h
      cases hr : labelsOf rest with
      | error e => rw [hr] at h; exact absurd h (by simp)
      | ok tail =>
        rw [hr] at h
        dsimp only at h
        injection h with h
        subst h
        constructor
        · intro hl
          rcases List.mem_cons.mp hl with rfl | hl'
          · exact ⟨it, List.mem_cons_self it rest, hg⟩
          · obtain ⟨x, hx, hgx⟩ := (ih tail hr).mp hl'
            exact ⟨x, List.mem_cons_of_mem _ hx, hgx⟩
        · rintro ⟨x, hx, hgx⟩
          rcases List.mem_cons.mp hx with rfl | hx'
          · rw [hg] at hgx
            injection hgx with hgx
            subst hgx
            exact List.mem_cons_self _ _
          · exact List.mem_cons_of_mem _ ((ih tail hr).mpr ⟨x, hx', hgx⟩)

/-- Claim C8 (empty-match handling): when the parser returns no
observations, the run terminates successfully (no exception, exit 0),
zero rows are written, the store is untouched, and the warning carries a
label list containing exactly the type labels observed in the raw
response (so every distinct observed label appears in it). -/
theorem claim8_empty_match (data : JValue) (today : String) (store : Store)
    (h : parse_prices data = .ok []) :
    (main_run data today store).err = none
    ∧ (main_run data today store).appended = 0
    ∧ (main_run data today store).warned = true
    ∧ (main_run data today store).store = store
    ∧ ∀ l, l ∈ (main_run data today store).warnLabels ↔
        ∃ iv items, pyGet data "chitiet" (.jlist []) = .ok iv ∧ pyIter iv = .ok items ∧
          ∃ it ∈ items, pyGet it "loaivang" .jnull = .ok l := by
  have hparse := h
  unfold parse_prices at h
  cases hgv : pyGet data "chitiet" (.jlist []) with
  | error e => rw [hgv] at h; exact absurd h (by simp)
  | ok iv =>
    rw [hgv] at h
    dsimp only at h
    cases hiv : pyIter iv with
    | error e => rw [hiv] at h; exact absurd h (by simp)
    | ok items =>
      rw [hiv] at h
      dsimp only at h
      obtain ⟨ls, hls⟩ := labelsOf_ok items (parse_items_jdict items [] h)
      have havail : availableLabels data = .ok ls := by
        unfold availableLabels
        rw [hgv]
        dsimp only
        rw [hiv]
        dsimp only
        exact hls
      refine ⟨by simp [main_run, hparse, havail], by simp [main_run, hparse, havail],
              by simp [main_run, hparse, havail], by simp [main_run, hparse, havail], ?_⟩
      intro l
      have hwl : (main_run data today store).warnLabels = ls := by
        simp [main_run, hparse, havail]
      rw [hwl]
      constructor
      · intro hl
        exact ⟨iv, items, rfl, hiv, (labelsOf_mem items ls l hls).mp hl⟩
      · rintro ⟨iv', items', hgv', hiv', hit⟩
        injection hgv' with hgv'
        subst hgv'
        rw [hiv] at hiv'
        injection hiv' with hiv'
        subst hiv'
        exact (labelsOf_mem items ls l hls).mpr hit

/-- Witness for C8 at a response carrying only a non-allow-listed type:
the run succeeds with a warning and no writes. -/
theorem claim8_empty_match_witness :
    (main_run (.jdict [("chitiet", .jlist [.jdict [("loaivang", .jstr "Vàng trang sức"),
        ("giamua", .jstr "5")]])]) "2024-10-10" none).err = none
    ∧ (main_run (.jdict [("chitiet", .jlist [.jdict [("loaivang", .jstr "Vàng trang sức"),
        ("giamua", .jstr "5")]])]) "2024-10-10" none).appended = 0
    ∧ (main_run (.jdict [("chitiet", .jlist [.jdict [("loaivang", .jstr "Vàng trang sức"),
        ("giamua", .jstr "5")]])]) "2024-10-10" none).warned = true
    ∧ (main_run (.jdict [("chitiet", .jlist [.jdict [("loaivang", .jstr "Vàng trang sức"),
        ("giamua", .jstr "5")]])]) "2024-10-10" none).store = none
    ∧ ∀ l, l ∈ (main_run (.jdict [("chitiet", .jlist [.jdict [("loaivang", .jstr "Vàng trang sức"),
        ("giamua", .jstr "5")]])]) "2024-10-10" none).warnLabels ↔
        ∃ iv items, pyGet (.jdict [("chitiet", .jlist [.jdict [("loaivang", .jstr "Vàng trang sức"),
            ("giamua", .jstr "5")]])]) "chitiet" (.jlist []) = .ok iv ∧ pyIter iv = .ok items ∧
          ∃ it ∈ items, pyGet it "loaivang" .jnull = .ok l :=
  claim8_empty_match
    (.jdict [("chitiet", .jlist [.jdict [("loaivang", .jstr "Vàng trang sức"),
        ("giamua", .jstr "5")]])]) "2024-10-10" none (by decide)
